import Mathlib

/-!
A shallow embedding of the posts API route of the repository
(src/src/app/api/posts/route.tsx) and proofs about its behaviour.

Modelling conventions:
  * JavaScript strings that are only passed around unchanged are Lean `String`;
    the tag values, which pass through `join`/`split`/`trim`, are modelled as
    `List Char` (`Str`) so the character level operations can be reasoned about.
  * Form fields obtained with `body.get` are `Option String`; the JavaScript
    truthiness test `!x` holds exactly when the field is absent or the empty
    string, modelled by `falsy`.
  * The mongoose store is a record of in-memory collections; `_id` values are
    Lean strings.  Mongo guarantees `_id` uniqueness inside a collection, so
    single-document operations are modelled with `find?`-style first-match
    operations.
  * The session is `Option String` carrying the user id; the Firebase asset
    store is an oracle `uploadFn : String → Except String String` mapping an
    object key to either an error (a thrown exception in the source) or the
    public download URL.  `Math.random() * 100000000000).toFixed(0)` is
    modelled by a natural number parameter `rnd` (any value below `10 ^ 11`
    is a feasible outcome).
  * The `$dateToString %d-%m-%Y` rendering is abstracted to `dateToString`;
    none of the verified claims depend on the rendered text, only on which
    underlying date value is rendered and on the order of the posts.
-/

/-- Character lists standing for the JavaScript strings that undergo
`split`/`join`/`trim`. -/
abbrev Str := List Char

/-- Whitespace test used by `trim` (the usual ASCII whitespace characters). -/
def isWs (c : Char) : Bool :=
  c == ' ' || c == '\t' || c == '\n' || c == '\r'

/-- Model of `String.prototype.trim`: drop whitespace from both ends. -/
def trimStr (s : Str) : Str :=
  ((s.dropWhile isWs).reverse.dropWhile isWs).reverse

/-- Model of `String.prototype.split(sep)` for a one-character separator. -/
def splitChar (sep : Char) : Str → List Str
  | [] => [[]]
  | c :: cs =>
    if c = sep then [] :: splitChar sep cs
    else
      match splitChar sep cs with
      | [] => [[c]]
      | p :: ps => (c :: p) :: ps

/-- Model of `Array.prototype.join(sep)` for a one-character separator. -/
def joinSep (sep : Char) : List Str → Str
  | [] => []
  | [s] => s
  | s :: r :: rest => s ++ sep :: joinSep sep (r :: rest)

/-- Lines 138-139 / 243-244 of the route: `tags.join(",")` followed by
`split(",")` and `map(tag => tag.trim())`. -/
def normalizeTags (tags : List Str) : List Str :=
  (splitChar ',' (joinSep ',' tags)).map trimStr

/-- A category document (`categories` collection): identifier and name. -/
structure Category where
  _id : String
  name : String
deriving DecidableEq, Repr

/-- A subcategory document (`subcategories` collection). -/
structure Subcategory where
  _id : String
  name : String
deriving DecidableEq, Repr

/-- A tag document (`tags` collection); its `_id` is referenced from the
`tags` array of a post, which is written from form data as trimmed strings. -/
structure TagDoc where
  _id : Str
  name : String
deriving DecidableEq, Repr

/-- A post document, with the fields the route reads and writes.
`publish_date` and `updated_date` are epoch instants as natural numbers. -/
structure Post where
  _id : String
  title : String
  slug : Option String
  content : String
  excerpt : Option String
  author : String
  category : Option String
  subcategory : Option String
  tags : List Str
  metaTitle : Option String
  metaDescription : Option String
  metaKeywords : Option String
  featuredImage : String
  imageCredit : Option String
  status : Option String
  publish_date : Nat
  updated_date : Nat
deriving DecidableEq, Repr

/-- The persistent store: the four collections the route touches, plus the
users collection (only existence of a user id is ever consulted). -/
structure Store where
  posts : List Post
  categories : List Category
  subcategories : List Subcategory
  tags : List TagDoc
  users : List String
deriving DecidableEq, Repr

/-- An HTTP-shaped response: status code and message. -/
structure Response where
  status : Nat
  message : String
deriving DecidableEq, Repr

def validationResp : Response :=
  ⟨400, "Title, content, author, category, and subcategory are required"⟩

def unauthorizedResp : Response := ⟨401, "Unauthorized"⟩

def userNotFoundResp : Response := ⟨404, "User not found"⟩

def postNotFoundResp : Response := ⟨404, "Post not found"⟩

def invalidPostResp : Response := ⟨400, "Invalid Post"⟩

def idRequiredResp : Response := ⟨400, "ID is required"⟩

def createdResp : Response := ⟨201, "Post created successfully"⟩

def updatedResp : Response := ⟨200, "Post updated successfully"⟩

def deletedResp : Response := ⟨200, "Post deleted successfully"⟩

/-- A non-mongoose exception caught by the catch block: status 500 with the
thrown value as message. -/
def serverErrorResp (m : String) : Response := ⟨500, m⟩

/-- JavaScript truthiness of a `body.get` result: `null` and `""` are falsy. -/
def falsy : Option String → Bool
  | none => true
  | some s => s == ""

/-- The value of a form field on a path where the validation has already
established it is truthy. -/
def reqVal (v : Option String) : String := v.getD ""

/-- The `featuredImage` form entry: absent, an ordinary string value, or an
uploaded `File` with its declared content type (`file.type`). -/
inductive FileValue where
  | none
  | str (s : String)
  | file (contentType : String)
deriving DecidableEq, Repr

/-- The multipart form fields read by the POST and PUT handlers. -/
structure PostForm where
  _id : Option String
  title : Option String
  slug : Option String
  content : Option String
  excerpt : Option String
  author : Option String
  category : Option String
  subcategory : Option String
  tags : List Str
  metaTitle : Option String
  metaDescription : Option String
  metaKeywords : Option String
  featuredImage : FileValue
  imageCredit : Option String
  status : Option String
deriving DecidableEq, Repr

/-- Line 143 / 248: `!title || !content || !author || !category || !subcategory`. -/
def reqMissing (f : PostForm) : Bool :=
  falsy f.title || falsy f.content || falsy f.author ||
    falsy f.category || falsy f.subcategory

/-- Line 192 / 301: `file.type.split("/").pop()` — the last segment of the
declared media type (split on the one-character separator, last element). -/
def extOf (contentType : String) : String :=
  ((splitChar '/' contentType.data).getLastD []).asString

/-- Line 193: the object key synthesised for a create upload,
`the-educative/blog/post-<rnd>.<ext>` with `rnd` the stringified outcome of
`(Math.random() * 100000000000).toFixed(0)`. -/
def mkPostFileName (rnd : Nat) (ext : String) : String :=
  "the-educative/blog/post-" ++ Nat.repr rnd ++ "." ++ ext

/-- Line 302: the deterministic object key for an update upload, derived from
the target identifier. -/
def mkPutFileName (id : String) (ext : String) : String :=
  "the-educative/blog/post-" ++ id ++ "." ++ ext

/-- Abstraction of the `$dateToString %d-%m-%Y` rendering; the verified
claims depend only on which date value is rendered, not on the format. -/
def dateToString (d : Nat) : String := toString d

/-- The enriched projection produced by the `$project` stage (lines 70-105).
Mongo keeps `_id` unless it is excluded, so it is part of the projection. -/
structure Projection where
  _id : String
  title : String
  slug : Option String
  content : String
  excerpt : Option String
  author : String
  category : Option String
  subcategory : Option String
  tags : List Str
  publish_date : String
  categoryName : Option String
  subcategoryName : Option String
  tagNames : List String
  metaTitle : Option String
  metaDescription : Option String
  metaKeywords : Option String
  featuredImage : String
  imageCredit : Option String
  status : Option String
  updated_date : Nat
deriving DecidableEq, Repr

/-- The `$lookup`/`$unwind`/`$project` stages applied to one post.  The
lookups match on `_id`, unique inside a collection, so the unwound result is
the first (only) match; `preserveNullAndEmptyArrays` keeps the post and
`$ifNull` turns a missing match into `null`. -/
def project (store : Store) (p : Post) : Projection :=
  let cat := store.categories.find? fun c => p.category == some c._id
  let sub := store.subcategories.find? fun s => p.subcategory == some s._id
  let tagDocs := store.tags.filter fun t => p.tags.contains t._id
  { _id := p._id
    title := p.title
    slug := p.slug
    content := p.content
    excerpt := p.excerpt
    author := p.author
    category := cat.map fun c => c._id
    subcategory := sub.map fun s => s._id
    tags := tagDocs.map fun t => t._id
    publish_date := dateToString p.publish_date
    categoryName := cat.map fun c => c.name
    subcategoryName := sub.map fun s => s.name
    tagNames := tagDocs.map fun t => t.name
    metaTitle := p.metaTitle
    metaDescription := p.metaDescription
    metaKeywords := p.metaKeywords
    featuredImage := p.featuredImage
    imageCredit := p.imageCredit
    status := p.status
    updated_date := p.updated_date }

/-- The `$match` stage (line 26): only posts with status `published`. -/
def publishedPosts (store : Store) : List Post :=
  store.posts.filter fun p => p.status == some "published"

/-- Insert a post into a list sorted descending by `publish_date`, keeping
it behind earlier posts with the same date (stable). -/
def insertByDateDesc (p : Post) : List Post → List Post
  | [] => [p]
  | q :: qs =>
    if q.publish_date < p.publish_date then p :: q :: qs
    else q :: insertByDateDesc p qs

/-- A stable sort, descending by `publish_date` (insertion sort). -/
def sortByDateDesc : List Post → List Post
  | [] => []
  | p :: ps => insertByDateDesc p (sortByDateDesc ps)

/-- The `$sort` stage (line 31): descending by `publish_date`. -/
def sortedPublished (store : Store) : List Post :=
  sortByDateDesc (publishedPosts store)

/-- The page window of the underlying sorted post list: skip
`(page-1)*limit`, take `limit`. -/
def pagedPublished (page limit : Option Nat) (store : Store) : List Post :=
  ((sortedPublished store).drop ((page.getD 1 - 1) * limit.getD 6)).take
    (limit.getD 6)

/-- `Post.countDocuments({status: "published"})` (line 110). -/
def countPublished (store : Store) : Nat := (publishedPosts store).length

/-- The body of a successful GET response. -/
structure ListResult where
  posts : List Projection
  totalPages : Nat
deriving DecidableEq, Repr

/-- The GET handler (lines 12-120).  `page` and `limit` arrive as optional
query parameters, defaulting to 1 and 6; `skip = (page-1)*limit`; the
pipeline filters, sorts, joins, projects, then skips and limits; the total
page count is `Math.ceil` of the full published count over the limit. -/
def GET (page limit : Option Nat) (store : Store) : ListResult :=
  let pageN := page.getD 1
  let limitN := limit.getD 6
  let skip := (pageN - 1) * limitN
  let posts := (((sortedPublished store).map (project store)).drop skip).take
    limitN
  let totalPages := Nat.ceil ((countPublished store : ℚ) / (limitN : ℚ))
  ⟨posts, totalPages⟩

/-- The post document built by `new Post({...})` in the POST handler
(lines 172-187): `featuredImage` starts as the empty string; the tags are the
normalised form tags; `publish_date`/`updated_date` come from schema
defaults, modelled as 0. -/
def newPostOf (f : PostForm) (freshId : String) : Post :=
  { _id := freshId
    title := reqVal f.title
    slug := f.slug
    content := reqVal f.content
    excerpt := f.excerpt
    author := reqVal f.author
    category := f.category
    subcategory := f.subcategory
    tags := normalizeTags f.tags
    metaTitle := f.metaTitle
    metaDescription := f.metaDescription
    metaKeywords := f.metaKeywords
    featuredImage := ""
    imageCredit := f.imageCredit
    status := f.status
    publish_date := 0
    updated_date := 0 }

/-- The POST handler (lines 122-224): validation of the required fields,
then the session gate, then the user-existence gate; an attached `File` is
uploaded under a pseudo-random key before the post is saved, and an upload
failure is a thrown exception reaching the catch block, so nothing is saved. -/
def POST (f : PostForm) (session : Option String) (rnd : Nat)
    (freshId : String) (uploadFn : String → Except String String)
    (store : Store) : Response × Store :=
  if reqMissing f then (validationResp, store)
  else
    match session with
    | Option.none => (unauthorizedResp, store)
    | Option.some uid =>
      if store.users.contains uid then
        let base := newPostOf f freshId
        match f.featuredImage with
        | FileValue.file ct =>
          match uploadFn (mkPostFileName rnd (extOf ct)) with
          | Except.error e => (serverErrorResp e, store)
          | Except.ok url =>
            (createdResp,
              { store with
                posts := store.posts ++ [{ base with featuredImage := url }] })
        | _ => (createdResp, { store with posts := store.posts ++ [base] })
      else (userNotFoundResp, store)

/-- The field overwrites of the PUT handler (lines 285-296): every listed
field is replaced by the supplied form value; `slug`, `publish_date`,
`featuredImage` and `updated_date` are not listed and keep their values. -/
def overwriteFields (p : Post) (f : PostForm) : Post :=
  { p with
    title := reqVal f.title
    content := reqVal f.content
    excerpt := f.excerpt
    author := reqVal f.author
    category := f.category
    subcategory := f.subcategory
    tags := normalizeTags f.tags
    metaTitle := f.metaTitle
    metaDescription := f.metaDescription
    metaKeywords := f.metaKeywords
    imageCredit := f.imageCredit
    status := f.status }

/-- Replace the first post with the given `_id` (the `post.save()` of an
update, `_id` being unique in the collection). -/
def replaceById (id : String) (newP : Post) : List Post → List Post
  | [] => []
  | p :: ps => if p._id == id then newP :: ps else p :: replaceById id newP ps

/-- The PUT handler (lines 226-339): required-field validation, session
gate, user gate, then the target id check (`Invalid Post` when falsy), the
target lookup (`Post not found`), the unconditional field overwrites, the
optional upload under the id-derived key, and the save. -/
def PUT (f : PostForm) (session : Option String)
    (uploadFn : String → Except String String) (store : Store) :
    Response × Store :=
  if reqMissing f then (validationResp, store)
  else
    match session with
    | Option.none => (unauthorizedResp, store)
    | Option.some uid =>
      if store.users.contains uid then
        if falsy f._id then (invalidPostResp, store)
        else
          let i := reqVal f._id
          match store.posts.find? (fun p => p._id == i) with
          | Option.none => (postNotFoundResp, store)
          | Option.some p =>
            let p1 := overwriteFields p f
            match f.featuredImage with
            | FileValue.file ct =>
              match uploadFn (mkPutFileName i (extOf ct)) with
              | Except.error e => (serverErrorResp e, store)
              | Except.ok url =>
                (updatedResp,
                  { store with
                    posts := replaceById i { p1 with featuredImage := url }
                      store.posts })
            | _ =>
              (updatedResp,
                { store with posts := replaceById i p1 store.posts })
      else (userNotFoundResp, store)

/-- `Post.findOneAndDelete({_id: id})` (line 372): remove the first matching
post, returning it (if any) and the remaining list. -/
def removeFirst (id : String) : List Post → Option Post × List Post
  | [] => (Option.none, [])
  | p :: ps =>
    if p._id == id then (Option.some p, ps)
    else
      let r := removeFirst id ps
      (r.1, p :: r.2)

/-- The DELETE handler (lines 341-392): the id check (`ID is required`),
the session gate, the user gate, then find-and-delete. -/
def DELETE (id : Option String) (session : Option String) (store : Store) :
    Response × Store :=
  if falsy id then (idRequiredResp, store)
  else
    match session with
    | Option.none => (unauthorizedResp, store)
    | Option.some uid =>
      if store.users.contains uid then
        match removeFirst (reqVal id) store.posts with
        | (Option.none, _) => (postNotFoundResp, store)
        | (Option.some _, rest) =>
          (deletedResp, { store with posts := rest })
      else (userNotFoundResp, store)

/-! ### Demonstration stores used by the witnesses -/

/-- A published demo post with distinct id and publish date. -/
def demoPost (n : Nat) : Post :=
  { _id := Nat.repr n
    title := "title"
    slug := Option.none
    content := "content"
    excerpt := Option.none
    author := "author"
    category := Option.none
    subcategory := Option.none
    tags := []
    metaTitle := Option.none
    metaDescription := Option.none
    metaKeywords := Option.none
    featuredImage := ""
    imageCredit := Option.none
    status := Option.some "published"
    publish_date := n
    updated_date := 0 }

/-- Thirteen published posts, one user; mirrors the worked example of the
specification (page 2, limit 6, 13 published posts). -/
def demoStore : Store :=
  { posts := (List.range 13).map demoPost
    categories := []
    subcategories := []
    tags := []
    users := ["u1"] }

/-- A store whose single published post carries category and subcategory
references that resolve to nothing. -/
def demoStoreDangling : Store :=
  { posts := [{ demoPost 0 with
                  category := Option.some "c1"
                  subcategory := Option.some "s1" }]
    categories := [⟨"c2", "Maths"⟩]
    subcategories := []
    tags := []
    users := ["u1"] }

/-- A form with every required field present, no tags and no asset. -/
def formOk : PostForm :=
  { _id := Option.some "0"
    title := Option.some "A title"
    slug := Option.some "a-title"
    content := Option.some "Some content"
    excerpt := Option.none
    author := Option.some "An author"
    category := Option.some "c2"
    subcategory := Option.some "s2"
    tags := []
    metaTitle := Option.none
    metaDescription := Option.none
    metaKeywords := Option.none
    featuredImage := FileValue.none
    imageCredit := Option.none
    status := Option.some "draft" }

/-- A form missing the required title field. -/
def formMissing : PostForm := { formOk with title := Option.none }

/-- A form carrying a binary asset with media type image/png. -/
def formAsset : PostForm :=
  { formOk with featuredImage := FileValue.file "image/png" }

/-- An asset store that accepts every upload. -/
def okUpload : String → Except String String :=
  fun _ => Except.ok "https://cdn.example/img.png"

/-- An asset store that rejects every upload. -/
def failUpload : String → Except String String :=
  fun _ => Except.error "upload failed"

/-! ### Helper lemmas about the string operations -/

theorem splitChar_ne_nil (sep : Char) (s : Str) : splitChar sep s ≠ [] := by
  induction s with
  | nil => simp [splitChar]
  | cons c cs ih =>
    simp only [splitChar]
    split
    · simp
    · cases h : splitChar sep cs with
      | nil => simp
      | cons p ps => simp [h]

theorem splitChar_of_not_mem (sep : Char) (s : Str) (h : sep ∉ s) :
    splitChar sep s = [s] := by
  induction s with
  | nil => rfl
  | cons c cs ih =>
    have hc : ¬ c = sep := fun hc => h (hc ▸ List.mem_cons_self c cs)
    have hcs : sep ∉ cs := fun hm => h (List.mem_cons_of_mem c hm)
    simp only [splitChar, if_neg hc, ih hcs]

theorem splitChar_append (sep : Char) (a t : Str) (h : sep ∉ a) :
    splitChar sep (a ++ sep :: t) = a :: splitChar sep t := by
  induction a with
  | nil => simp [splitChar]
  | cons c cs ih =>
    have hc : ¬ c = sep := fun hc => h (hc ▸ List.mem_cons_self c cs)
    have hcs : sep ∉ cs := fun hm => h (List.mem_cons_of_mem c hm)
    have ih2 := ih hcs
    simp only [List.cons_append, splitChar, List.append_eq, if_neg hc, ih2]

theorem length_splitChar (sep : Char) (s : Str) :
    (splitChar sep s).length = s.count sep + 1 := by
  induction s with
  | nil => simp [splitChar]
  | cons c cs ih =>
    by_cases hc : c = sep
    · subst hc
      simp [splitChar, ih, List.count_cons]
    · have hne : splitChar sep cs ≠ [] := splitChar_ne_nil sep cs
      cases h : splitChar sep cs with
      | nil => exact absurd h hne
      | cons p ps =>
        simp only [splitChar, if_neg hc, h]
        have := ih
        rw [h] at this
        simp only [List.length_cons] at this ⊢
        simp [List.count_cons, hc]
        omega

theorem count_joinSep (sep : Char) (l : List Str) (h : l ≠ []) :
    (joinSep sep l).count sep
      = (l.map (List.count sep)).sum + (l.length - 1) := by
  induction l with
  | nil => exact absurd rfl h
  | cons s rest ih =>
    cases rest with
    | nil => simp [joinSep]
    | cons r rest2 =>
      have ih2 := ih (by simp)
      simp only [joinSep, List.count_append, List.count_cons] at ih2 ⊢
      simp only [List.map_cons, List.sum_cons, List.length_cons] at ih2 ⊢
      rw [ih2]
      simp
      omega

theorem splitChar_joinSep (sep : Char) (l : List Str) (h : l ≠ [])
    (hsep : ∀ s ∈ l, sep ∉ s) :
    splitChar sep (joinSep sep l) = l := by
  induction l with
  | nil => exact absurd rfl h
  | cons s rest ih =>
    cases rest with
    | nil => simp [joinSep, splitChar_of_not_mem sep s (hsep s (by simp))]
    | cons r rest2 =>
      have hs : sep ∉ s := hsep s (by simp)
      have hrest : ∀ x ∈ r :: rest2, sep ∉ x := fun x hx =>
        hsep x (List.mem_cons_of_mem s hx)
      simp only [joinSep]
      rw [splitChar_append sep s _ hs, ih (by simp) hrest]

theorem mem_insertByDateDesc {a p : Post} {l : List Post} :
    a ∈ insertByDateDesc p l ↔ a = p ∨ a ∈ l := by
  induction l with
  | nil => simp [insertByDateDesc]
  | cons q qs ih =>
    simp only [insertByDateDesc]
    split
    · simp only [List.mem_cons]
    · simp only [List.mem_cons, ih]
      tauto

theorem mem_sortByDateDesc {a : Post} {l : List Post} :
    a ∈ sortByDateDesc l ↔ a ∈ l := by
  induction l with
  | nil => simp [sortByDateDesc]
  | cons p ps ih => simp [sortByDateDesc, mem_insertByDateDesc, ih]

theorem pairwise_insertByDateDesc (p : Post) (l : List Post)
    (h : l.Pairwise fun a b => b.publish_date ≤ a.publish_date) :
    (insertByDateDesc p l).Pairwise
      fun a b => b.publish_date ≤ a.publish_date := by
  induction l with
  | nil => simp [insertByDateDesc]
  | cons q qs ih =>
    rcases List.pairwise_cons.mp h with ⟨hq, hqs⟩
    simp only [insertByDateDesc]
    split
    · next hlt =>
      refine List.pairwise_cons.mpr ⟨?_, h⟩
      intro x hx
      rcases List.mem_cons.mp hx with hxq | hxqs
      · subst hxq
        omega
      · have := hq x hxqs
        omega
    · next hge =>
      refine List.pairwise_cons.mpr ⟨?_, ih hqs⟩
      intro x hx
      rcases mem_insertByDateDesc.mp hx with hxp | hxqs
      · subst hxp
        omega
      · exact hq x hxqs

theorem pairwise_sortByDateDesc (l : List Post) :
    (sortByDateDesc l).Pairwise
      fun a b => b.publish_date ≤ a.publish_date := by
  induction l with
  | nil => simp [sortByDateDesc]
  | cons p ps ih => exact pairwise_insertByDateDesc p _ ih

theorem ceil_div_eq_add_pred_div (t l : Nat) (hl : 1 ≤ l) :
    Nat.ceil ((t : ℚ) / (l : ℚ)) = (t + l - 1) / l := by
  have hl0 : (0 : ℚ) < (l : ℚ) := by exact_mod_cast hl
  have key := Nat.div_add_mod (t + l - 1) l
  have hmod : (t + l - 1) % l < l := Nat.mod_lt _ (by omega)
  rw [show (t + l - 1) / l = (t + l - 1) / l from rfl]
  generalize hd : (t + l - 1) / l = d at key
  generalize hE : l * d = E at key
  have h1 : t ≤ E := by omega
  have h2 : E < t + l := by omega
  apply le_antisymm
  · rw [Nat.ceil_le, div_le_iff₀ hl0]
    have hn : t ≤ l * d := by rw [hE]; exact h1
    have : (t : ℚ) ≤ (l : ℚ) * (d : ℚ) := by exact_mod_cast hn
    calc (t : ℚ) ≤ (l : ℚ) * (d : ℚ) := this
    _ = (d : ℚ) * (l : ℚ) := mul_comm _ _
  · rcases Nat.eq_zero_or_pos d with hd0 | hd0
    · simp [hd0]
    · have hsucc : d - 1 + 1 = d := Nat.succ_pred_eq_of_pos hd0
      have key2 : l * (d - 1) + l = E := by
        calc l * (d - 1) + l = l * (d - 1 + 1) := by ring
        _ = l * d := by rw [hsucc]
        _ = E := hE
      generalize hF : l * (d - 1) = F at key2
      have h3 : F < t := by omega
      have : d - 1 < Nat.ceil ((t : ℚ) / (l : ℚ)) := by
        rw [Nat.lt_ceil, lt_div_iff₀ hl0]
        have : ((d - 1 : Nat) : ℚ) * (l : ℚ) = (F : ℚ) := by
          rw [← hF]
          push_cast [mul_comm]
          ring
        rw [this]
        exact_mod_cast h3
      omega

/-! ### C1: pagination of the list operation -/

/-- Claim C1: with page and limit at least 1 (defaults 1 and 6 when absent),
GET returns at most limit posts, namely the window of the sorted published
posts skipping (page-1)*limit of them, and totalPages is the ceiling of the
full published count divided by limit. -/
theorem GET_pagination (store : Store) (page limit : Option Nat)
    (_hp : 1 ≤ page.getD 1) (hl : 1 ≤ limit.getD 6) :
    (GET page limit store).posts.length ≤ limit.getD 6 ∧
    (GET page limit store).posts
      = (pagedPublished page limit store).map (project store) ∧
    (GET page limit store).totalPages
      = (countPublished store + limit.getD 6 - 1) / limit.getD 6 := by
  refine ⟨?_, ?_, ?_⟩
  · simp only [GET, List.length_take]
    omega
  · simp [GET, pagedPublished]
  · simp only [GET]
    exact ceil_div_eq_add_pred_div (countPublished store) (limit.getD 6) hl

/-- Witness for C1, matching the worked example of the specification:
13 published posts, page 2, limit 6. -/
theorem GET_pagination_witness :
    1 ≤ (Option.some 2).getD 1 ∧ 1 ≤ (Option.some 6).getD 6 ∧
    (GET (Option.some 2) (Option.some 6) demoStore).posts.length ≤ 6 ∧
    (GET (Option.some 2) (Option.some 6) demoStore).totalPages = 3 :=
  have h := GET_pagination demoStore (Option.some 2) (Option.some 6)
    (by decide) (by decide)
  ⟨by decide, by decide, h.1, by rw [h.2.2]; decide⟩

/-! ### C2: only published posts, sorted by descending publish date -/

/-- Claim C2: every projection returned by GET has status published, and the
returned sequence is the projection image of a list of posts that is
pairwise descending in publish date. -/
theorem GET_published_sorted (store : Store) (page limit : Option Nat)
    (q : Projection) (hq : q ∈ (GET page limit store).posts) :
    q.status = Option.some "published" ∧
    (pagedPublished page limit store).Pairwise
      (fun a b => b.publish_date ≤ a.publish_date) ∧
    (GET page limit store).posts
      = (pagedPublished page limit store).map (project store) := by
  have hmap : (GET page limit store).posts
      = (pagedPublished page limit store).map (project store) := by
    simp [GET, pagedPublished]
  have hsub : List.Sublist (pagedPublished page limit store)
      (sortedPublished store) :=
    (List.take_sublist _ _).trans (List.drop_sublist _ _)
  refine ⟨?_, ?_, hmap⟩
  · rw [hmap] at hq
    rcases List.mem_map.mp hq with ⟨p, hpmem, hpq⟩
    have hp2 : p ∈ sortedPublished store := hsub.mem hpmem
    have hp3 : p ∈ publishedPosts store := mem_sortByDateDesc.mp hp2
    have hp4 : (p.status == Option.some "published") = true :=
      (List.mem_filter.mp hp3).2
    have hps : p.status = Option.some "published" := eq_of_beq hp4
    rw [← hpq]
    exact hps
  · exact (pairwise_sortByDateDesc (publishedPosts store)).sublist hsub

/-- Witness for C2: the newest demo post is returned on page 1. -/
theorem GET_published_sorted_witness :
    project demoStore (demoPost 12)
        ∈ (GET (Option.some 1) (Option.some 6) demoStore).posts ∧
    (project demoStore (demoPost 12)).status = Option.some "published" :=
  have h := GET_published_sorted demoStore (Option.some 1) (Option.some 6)
    (project demoStore (demoPost 12)) (by decide)
  ⟨by decide, h.1⟩

/-! ### C4: unresolved taxonomy references surface as null, not an error -/

/-- Claim C4: a published post whose category or subcategory reference does
not resolve is still part of the projected read model, with the reference
and the resolved name both null. -/
theorem GET_dangling_refs_null (store : Store) (p : Post)
    (hp : p ∈ store.posts) (hpub : p.status = Option.some "published") :
    ((∀ c ∈ store.categories, ¬ p.category = Option.some c._id) →
      (project store p).category = Option.none ∧
      (project store p).categoryName = Option.none) ∧
    ((∀ s ∈ store.subcategories, ¬ p.subcategory = Option.some s._id) →
      (project store p).subcategory = Option.none ∧
      (project store p).subcategoryName = Option.none) ∧
    project store p ∈ (sortedPublished store).map (project store) := by
  refine ⟨?_, ?_, ?_⟩
  · intro h
    have hc : store.categories.find?
        (fun c => p.category == Option.some c._id) = Option.none :=
      List.find?_eq_none.mpr fun c hcmem => by
        simpa using h c hcmem
    constructor
    · simp [project, hc]
    · simp [project, hc]
  · intro h
    have hs : store.subcategories.find?
        (fun s => p.subcategory == Option.some s._id) = Option.none :=
      List.find?_eq_none.mpr fun s hsmem => by
        simpa using h s hsmem
    constructor
    · simp [project, hs]
    · simp [project, hs]
  · apply List.mem_map_of_mem
    have hpl : p ∈ publishedPosts store :=
      List.mem_filter.mpr ⟨hp, by simp [hpub]⟩
    exact mem_sortByDateDesc.mpr hpl

/-- Witness for C4: a post referencing category c1 while only c2 exists. -/
theorem GET_dangling_refs_null_witness :
    ((project demoStoreDangling
        (demoStoreDangling.posts.headD (demoPost 0))).category
      = Option.none) ∧
    ((project demoStoreDangling
        (demoStoreDangling.posts.headD (demoPost 0))).categoryName
      = Option.none) :=
  have h := GET_dangling_refs_null demoStoreDangling
    (demoStoreDangling.posts.headD (demoPost 0)) (by decide) (by decide)
  h.1 (by decide)

/-! ### C3: validation precedes authorization; failed gates persist nothing -/

/-- Claim C3: for Create, Update and Delete the payload validation is
evaluated before authorization (a missing required field or identifier gets
the validation response whatever the session is), a missing session gets
Unauthorized, a session whose user id is not in the store gets UserNotFound,
and every one of these failure paths leaves the store unchanged. -/
theorem mutation_validation_auth_order (f : PostForm) (delId : Option String)
    (store : Store) (rnd : Nat) (freshId : String)
    (uploadFn : String → Except String String) (uid : String) :
    (reqMissing f = true → ∀ session,
      POST f session rnd freshId uploadFn store = (validationResp, store) ∧
      PUT f session uploadFn store = (validationResp, store)) ∧
    (falsy delId = true → ∀ session,
      DELETE delId session store = (idRequiredResp, store)) ∧
    (reqMissing f = false →
      POST f Option.none rnd freshId uploadFn store
        = (unauthorizedResp, store) ∧
      PUT f Option.none uploadFn store = (unauthorizedResp, store)) ∧
    (falsy delId = false →
      DELETE delId Option.none store = (unauthorizedResp, store)) ∧
    (reqMissing f = false → store.users.contains uid = false →
      POST f (Option.some uid) rnd freshId uploadFn store
        = (userNotFoundResp, store) ∧
      PUT f (Option.some uid) uploadFn store = (userNotFoundResp, store)) ∧
    (falsy delId = false → store.users.contains uid = false →
      DELETE delId (Option.some uid) store = (userNotFoundResp, store)) := by
  refine ⟨?_, ?_, ?_, ?_, ?_, ?_⟩
  · intro h session
    exact ⟨by simp [POST, h], by simp [PUT, h]⟩
  · intro h session
    simp [DELETE, h]
  · intro h
    exact ⟨by simp [POST, h], by simp [PUT, h]⟩
  · intro h
    simp [DELETE, h]
  · intro h hu
    have hu2 : uid ∉ store.users := by simpa using hu
    exact ⟨by simp [POST, h, hu2], by simp [PUT, h, hu2]⟩
  · intro h hu
    have hu2 : uid ∉ store.users := by simpa using hu
    simp [DELETE, h, hu2]

/-- Witness for C3: a concrete missing-title form, a sessionless create and
a delete by an unknown user, all leaving the demo store unchanged. -/
theorem mutation_validation_auth_order_witness :
    POST formMissing Option.none 5 "p1" okUpload demoStore
      = (validationResp, demoStore) ∧
    POST formOk Option.none 5 "p1" okUpload demoStore
      = (unauthorizedResp, demoStore) ∧
    DELETE (Option.some "x1") (Option.some "ghost") demoStore
      = (userNotFoundResp, demoStore) :=
  have h1 := mutation_validation_auth_order formMissing (Option.some "x1")
    demoStore 5 "p1" okUpload "ghost"
  have h2 := mutation_validation_auth_order formOk (Option.some "x1")
    demoStore 5 "p1" okUpload "ghost"
  ⟨(h1.1 (by decide) Option.none).1, (h2.2.2.1 (by decide)).1,
    h2.2.2.2.2.2 (by decide) (by decide)⟩

/-! ### C5: tag normalisation (corrected) -/

/-- Counterexample to claim C5 as stated: the empty tag list contains no
value with the separator, yet join-then-split-then-trim yields the singleton
empty tag rather than the element-wise trimmed (empty) input list. -/
theorem normalizeTags_counterexample :
    (∀ s ∈ ([] : List Str), ',' ∉ s) ∧
    normalizeTags ([] : List Str) ≠ ([] : List Str).map trimStr := by
  constructor
  · intro s hs
    cases hs
  · decide

/-- Claim C5 as amended: for every NONEMPTY list of tag values none of which
contains the separator, the normalisation equals the element-wise trimmed
input; and a value containing the separator is split apart, so the
normalisation has strictly more entries than the input. -/
theorem normalizeTags_amended (l : List Str) :
    (l ≠ [] → (∀ s ∈ l, ',' ∉ s) → normalizeTags l = l.map trimStr) ∧
    (∀ v ∈ l, ',' ∈ v → l.length < (normalizeTags l).length) := by
  constructor
  · intro h hsep
    unfold normalizeTags
    rw [splitChar_joinSep ',' l h hsep]
  · intro v hv hcomma
    have hne : l ≠ [] := by
      intro h0
      subst h0
      cases hv
    unfold normalizeTags
    rw [List.length_map, length_splitChar, count_joinSep ',' l hne]
    have h1 : 0 < v.count ',' := List.count_pos_iff.mpr hcomma
    have h2 : v.count ',' ≤ (l.map (List.count ',')).sum :=
      List.single_le_sum (fun x _ => Nat.zero_le x) _
        (List.mem_map_of_mem _ hv)
    have h3 : 1 ≤ l.length := List.length_pos.mpr hne
    omega

/-- Witness for C5 (amended): a one-element list is returned trimmed, and a
value containing the separator produces a longer list. -/
theorem normalizeTags_amended_witness :
    normalizeTags [" ts ".data] = [" ts ".data].map trimStr ∧
    [" a,b ".data].length < (normalizeTags [" a,b ".data]).length :=
  ⟨(normalizeTags_amended [" ts ".data]).1 (by decide) (by decide),
    (normalizeTags_amended [" a,b ".data]).2 " a,b ".data (by decide)
      (by decide)⟩

/-! ### C6: a failed upload persists no post -/

/-- Claim C6: in Create with an attached binary asset the upload is issued
before the post is saved; when the upload fails the store is unchanged on
every path, and on the fully-authorized path the response is the propagated
failure. -/
theorem upload_failure_no_post (f : PostForm) (session : Option String)
    (store : Store) (rnd : Nat) (freshId : String)
    (uploadFn : String → Except String String) (ct e : String) (uid : String)
    (hasset : f.featuredImage = FileValue.file ct)
    (hfail : uploadFn (mkPostFileName rnd (extOf ct)) = Except.error e) :
    (POST f session rnd freshId uploadFn store).2 = store ∧
    (reqMissing f = false → store.users.contains uid = true →
      POST f (Option.some uid) rnd freshId uploadFn store
        = (serverErrorResp e, store)) := by
  constructor
  · cases hreq : reqMissing f
    · rcases session with _ | uid2
      · simp [POST, hreq]
      · by_cases huser : uid2 ∈ store.users
        · simp [POST, hreq, huser, hasset, hfail]
        · simp [POST, hreq, huser]
    · simp [POST, hreq]
  · intro hreq huser
    have hu2 : uid ∈ store.users := by simpa using huser
    simp [POST, hreq, hu2, hasset, hfail]

/-- Witness for C6: with every upload failing, a fully-authorized create
against the demo store persists nothing. -/
theorem upload_failure_no_post_witness :
    (POST formAsset (Option.some "u1") 5 "p1" failUpload demoStore).2
      = demoStore ∧
    POST formAsset (Option.some "u1") 5 "p1" failUpload demoStore
      = (serverErrorResp "upload failed", demoStore) :=
  have h := upload_failure_no_post formAsset (Option.some "u1") demoStore 5
    "p1" failUpload "image/png" "upload failed" "u1" rfl rfl
  ⟨h.1, h.2 (by decide) (by decide)⟩

/-! ### C10: zero tag values persist as a singleton empty tag -/

/-- Claim C10: with zero caller-supplied tag values, join-then-split-trim
yields the singleton list holding the empty string, and both a successful
Create and the Update overwrite persist exactly that singleton as the tags
list. -/
theorem normalizeTags_empty_singleton (f : PostForm) (p : Post)
    (uid freshId : String) (store : Store) (rnd : Nat)
    (uploadFn : String → Except String String)
    (hreq : reqMissing f = false) (huser : store.users.contains uid = true)
    (htags : f.tags = []) (hasset : f.featuredImage = FileValue.none) :
    normalizeTags ([] : List Str) = [[]] ∧
    (POST f (Option.some uid) rnd freshId uploadFn store).2.posts
      = store.posts ++ [newPostOf f freshId] ∧
    (newPostOf f freshId).tags = [[]] ∧
    (overwriteFields p f).tags = [[]] := by
  have hu2 : uid ∈ store.users := by simpa using huser
  refine ⟨rfl, ?_, ?_, ?_⟩
  · simp [POST, hreq, hu2, hasset]
  · simp [newPostOf, htags]
    rfl
  · simp [overwriteFields, htags]
    rfl

/-- Witness for C10: the demo form with no tags persists the singleton
empty tag. -/
theorem normalizeTags_empty_singleton_witness :
    (POST formOk (Option.some "u1") 5 "p1" okUpload demoStore).2.posts
      = demoStore.posts ++ [newPostOf formOk "p1"] ∧
    (newPostOf formOk "p1").tags = [[]] :=
  have h := normalizeTags_empty_singleton formOk (demoPost 0) "u1" "p1"
    demoStore 5 okUpload (by decide) (by decide) (by decide) (by decide)
  ⟨h.2.1, h.2.2.1⟩

/-! ### C7: the create upload key (corrected) -/

/-- The decimal representation of a natural number is never empty. -/
theorem one_le_repr_length (n : Nat) : 1 ≤ (Nat.repr n).length := by
  simp only [Nat.repr, Nat.toDigits, String.length, List.asString]
  show 1 ≤ (Nat.toDigitsCore 10 (n + 1) n []).length
  simp only [Nat.toDigitsCore]
  by_cases h : n / 10 = 0
  · simp [h]
  · simp only [h, if_false]
    rw [Nat.toDigitsCore_lens_eq]
    omega

/-- Counterexample to claim C7 as stated: the outcome 5 of the random draw
is feasible, and it produces the key the-educative/blog/post-5.png, whose
integer component has one digit, not eleven, and which does not have the
claimed shape post-(eleven digits).png at all. -/
theorem upload_key_counterexample :
    (5 : Nat) < 10 ^ 11 ∧
    mkPostFileName 5 "png" = "the-educative/blog/post-5.png" ∧
    (Nat.repr 5).length = 1 ∧
    ¬ ∃ d : String, d.length = 11 ∧
      mkPostFileName 5 "png" = "post-" ++ d ++ "." ++ "png" := by
  refine ⟨by norm_num, rfl, rfl, ?_⟩
  rintro ⟨d, hd, he⟩
  have h1 : (mkPostFileName 5 "png").length = 29 := rfl
  rw [he] at h1
  have hp : ("post-" : String).length = 5 := rfl
  have hdot : ("." : String).length = 1 := rfl
  have hpng : ("png" : String).length = 3 := rfl
  rw [String.length_append, String.length_append, String.length_append,
    hp, hdot, hpng, hd] at h1
  omega

/-- Claim C7 as amended: featuredImage starts empty and the create upload
key is the-educative/blog/post-(r).(ext), where ext is the last segment of
the declared media type and r is the decimal form of the random draw, with
between 1 and 11 digits (not always exactly 11); on upload success the
persisted featuredImage is the returned URL, with no asset it stays empty. -/
theorem upload_key_amended (rnd : Nat) (ext : String) (f : PostForm)
    (uid freshId : String) (store : Store)
    (uploadFn : String → Except String String) (ct url : String)
    (hrnd : rnd < 10 ^ 11)
    (hreq : reqMissing f = false) (huser : store.users.contains uid = true) :
    mkPostFileName rnd ext
      = "the-educative/blog/post-" ++ Nat.repr rnd ++ "." ++ ext ∧
    1 ≤ (Nat.repr rnd).length ∧
    (Nat.repr rnd).length ≤ 11 ∧
    (newPostOf f freshId).featuredImage = "" ∧
    (f.featuredImage = FileValue.none →
      ((POST f (Option.some uid) rnd freshId uploadFn store).2.posts.getLast?).map
          (fun q => q.featuredImage) = Option.some "") ∧
    (f.featuredImage = FileValue.file ct →
      uploadFn (mkPostFileName rnd (extOf ct)) = Except.ok url →
      ((POST f (Option.some uid) rnd freshId uploadFn store).2.posts.getLast?).map
          (fun q => q.featuredImage) = Option.some url) := by
  have hu2 : uid ∈ store.users := by simpa using huser
  refine ⟨rfl, one_le_repr_length rnd, Nat.repr_length rnd 11 (by norm_num) hrnd,
    rfl, ?_, ?_⟩
  · intro hasset
    simp [POST, hreq, hu2, hasset, newPostOf]
  · intro hasset hok
    simp [POST, hreq, hu2, hasset, hok]

/-- Witness for C7 (amended): the draw 5 with a png asset against the demo
store, and the same form without an asset. -/
theorem upload_key_amended_witness :
    mkPostFileName 5 "png"
      = "the-educative/blog/post-" ++ Nat.repr 5 ++ "." ++ "png" ∧
    1 ≤ (Nat.repr 5).length ∧
    (Nat.repr 5).length ≤ 11 ∧
    ((POST formOk (Option.some "u1") 5 "p1" okUpload demoStore).2.posts.getLast?).map
        (fun q => q.featuredImage) = Option.some "" ∧
    ((POST formAsset (Option.some "u1") 5 "p1" okUpload demoStore).2.posts.getLast?).map
        (fun q => q.featuredImage)
      = Option.some "https://cdn.example/img.png" :=
  have h1 := upload_key_amended 5 "png" formOk "u1" "p1" demoStore okUpload
    "image/png" "https://cdn.example/img.png" (by norm_num) (by decide)
    (by decide)
  have h2 := upload_key_amended 5 "png" formAsset "u1" "p1" demoStore okUpload
    "image/png" "https://cdn.example/img.png" (by norm_num) (by decide)
    (by decide)
  ⟨h1.1, h1.2.1, h1.2.2.1, h1.2.2.2.2.1 rfl, h2.2.2.2.2.2 rfl rfl⟩

/-! ### C8: update overwrites listed fields, frames the rest -/

/-- Claim C8: a successful Update (required fields present, authorized user,
resolvable target, no binary asset) saves exactly the target post with every
listed field replaced by the supplied form value — including empty or absent
optional values — while slug, publish date, featured image, identifier and
updated date keep their prior values. -/
theorem update_overwrites_and_frames (f : PostForm) (p : Post) (uid : String)
    (store : Store) (uploadFn : String → Except String String)
    (hreq : reqMissing f = false) (huser : store.users.contains uid = true)
    (hid : falsy f._id = false)
    (hfound : store.posts.find? (fun q => q._id == reqVal f._id)
      = Option.some p)
    (hasset : f.featuredImage = FileValue.none) :
    PUT f (Option.some uid) uploadFn store
      = (updatedResp,
          { store with
              posts := replaceById (reqVal f._id) (overwriteFields p f)
                store.posts }) ∧
    (overwriteFields p f).title = reqVal f.title ∧
    (overwriteFields p f).content = reqVal f.content ∧
    (overwriteFields p f).excerpt = f.excerpt ∧
    (overwriteFields p f).author = reqVal f.author ∧
    (overwriteFields p f).category = f.category ∧
    (overwriteFields p f).subcategory = f.subcategory ∧
    (overwriteFields p f).tags = normalizeTags f.tags ∧
    (overwriteFields p f).metaTitle = f.metaTitle ∧
    (overwriteFields p f).metaDescription = f.metaDescription ∧
    (overwriteFields p f).metaKeywords = f.metaKeywords ∧
    (overwriteFields p f).imageCredit = f.imageCredit ∧
    (overwriteFields p f).status = f.status ∧
    (overwriteFields p f).slug = p.slug ∧
    (overwriteFields p f).publish_date = p.publish_date ∧
    (overwriteFields p f).featuredImage = p.featuredImage ∧
    (overwriteFields p f)._id = p._id ∧
    (overwriteFields p f).updated_date = p.updated_date := by
  have hu2 : uid ∈ store.users := by simpa using huser
  refine ⟨?_, rfl, rfl, rfl, rfl, rfl, rfl, rfl, rfl, rfl, rfl, rfl, rfl,
    rfl, rfl, rfl, rfl, rfl⟩
  simp [PUT, hreq, hu2, hid, hfound, hasset]

/-- Witness for C8: updating post 0 of the demo store with the demo form. -/
theorem update_overwrites_and_frames_witness :
    PUT formOk (Option.some "u1") okUpload demoStore
      = (updatedResp,
          { demoStore with
              posts := replaceById (reqVal formOk._id)
                (overwriteFields (demoPost 0) formOk) demoStore.posts }) ∧
    (overwriteFields (demoPost 0) formOk).slug = (demoPost 0).slug ∧
    (overwriteFields (demoPost 0) formOk).featuredImage
      = (demoPost 0).featuredImage :=
  have h := update_overwrites_and_frames formOk (demoPost 0) "u1" demoStore
    okUpload (by decide) (by decide) (by decide) (by decide) (by decide)
  ⟨h.1, h.2.2.2.2.2.2.2.2.2.2.2.2.2.1, h.2.2.2.2.2.2.2.2.2.2.2.2.2.2.2.1⟩

/-! ### C9: missing targets, deletion, and the frame of failures -/

/-- If no post carries the identifier, find-and-delete touches nothing. -/
theorem removeFirst_of_no_match (i : String) (l : List Post)
    (h : ∀ q ∈ l, ¬ q._id = i) : removeFirst i l = (Option.none, l) := by
  induction l with
  | nil => rfl
  | cons q qs ih =>
    have hq : ¬ q._id = i := h q (by simp)
    have hqs : ∀ x ∈ qs, ¬ x._id = i := fun x hx => h x (by simp [hx])
    simp [removeFirst, hq, ih hqs]

/-- If some post carries the identifier, find-and-delete returns a post. -/
theorem removeFirst_finds (i : String) (l : List Post) (p : Post)
    (hp : p ∈ l) (hpi : p._id = i) :
    ∃ q, (removeFirst i l).1 = Option.some q := by
  induction l with
  | nil => cases hp
  | cons q qs ih =>
    by_cases hq : q._id = i
    · exact ⟨q, by simp [removeFirst, hq]⟩
    · rcases List.mem_cons.mp hp with h1 | h2
      · subst h1
        exact absurd hpi hq
      · rcases ih h2 with ⟨r, hr⟩
        exact ⟨r, by simp [removeFirst, hq, hr]⟩

/-- With unique identifiers, the remainder of a find-and-delete no longer
contains the identifier: a subsequent fetch finds nothing. -/
theorem removeFirst_rest_find_none (i : String) (l : List Post)
    (hnd : (l.map (fun q => q._id)).Nodup) :
    (removeFirst i l).2.find? (fun q => q._id == i) = Option.none := by
  induction l with
  | nil => rfl
  | cons q qs ih =>
    rw [List.map_cons, List.nodup_cons] at hnd
    rcases hnd with ⟨hq, hqs⟩
    by_cases hqi : q._id = i
    · have hrm : removeFirst i (q :: qs) = (Option.some q, qs) := by
        simp [removeFirst, hqi]
      rw [hrm]
      apply List.find?_eq_none.mpr
      intro x hx
      simp only [beq_iff_eq]
      intro hxi
      apply hq
      have : x._id ∈ qs.map (fun r => r._id) :=
        List.mem_map_of_mem _ hx
      rw [hxi, ← hqi] at this
      exact this
    · have hrm : removeFirst i (q :: qs)
          = ((removeFirst i qs).1, q :: (removeFirst i qs).2) := by
        simp [removeFirst, hqi]
      rw [hrm]
      have hfq : (fun r : Post => r._id == i) q = false := by
        simp [hqi]
      rw [List.find?_cons_of_neg _ (by simp [hqi])]
      exact ih hqs

/-- Claim C9: an Update whose target id resolves to no post answers NotFound
and leaves the store unchanged; a Delete of an absent id answers NotFound
and leaves the store unchanged; a Delete of an existing id (ids unique)
removes the post so that a subsequent fetch by that id finds nothing. -/
theorem update_delete_target_resolution (f : PostForm) (delId : Option String)
    (uid : String) (store : Store) (p : Post)
    (uploadFn : String → Except String String)
    (hreq : reqMissing f = false) (huser : store.users.contains uid = true) :
    (falsy f._id = false →
      (∀ q ∈ store.posts, ¬ q._id = reqVal f._id) →
      PUT f (Option.some uid) uploadFn store = (postNotFoundResp, store)) ∧
    (falsy delId = false →
      (∀ q ∈ store.posts, ¬ q._id = reqVal delId) →
      DELETE delId (Option.some uid) store = (postNotFoundResp, store)) ∧
    (falsy delId = false →
      (store.posts.map (fun q => q._id)).Nodup →
      p ∈ store.posts → p._id = reqVal delId →
      DELETE delId (Option.some uid) store
        = (deletedResp,
            { store with posts := (removeFirst (reqVal delId) store.posts).2 }) ∧
      ((removeFirst (reqVal delId) store.posts).2.find?
        (fun q => q._id == reqVal delId)) = Option.none) := by
  have hu2 : uid ∈ store.users := by simpa using huser
  refine ⟨?_, ?_, ?_⟩
  · intro hid hnone
    have hfind : store.posts.find? (fun q => q._id == reqVal f._id)
        = Option.none :=
      List.find?_eq_none.mpr fun q hqm => by simpa using hnone q hqm
    simp [PUT, hreq, hu2, hid, hfind]
  · intro hid hnone
    have hrm := removeFirst_of_no_match (reqVal delId) store.posts hnone
    simp [DELETE, hid, hu2, hrm]
  · intro hid hnd hp hpi
    rcases removeFirst_finds (reqVal delId) store.posts p hp hpi with ⟨r, hr⟩
    constructor
    · rcases hsplit : removeFirst (reqVal delId) store.posts with ⟨o, rest⟩
      rw [hsplit] at hr
      change o = Option.some r at hr
      subst hr
      simp [DELETE, hid, hu2, hsplit]
    · exact removeFirst_rest_find_none (reqVal delId) store.posts hnd

/-- Witness for C9: updating a ghost id fails without change; deleting post
0 of the demo store removes it so a fetch finds nothing. -/
theorem update_delete_target_resolution_witness :
    PUT { formOk with _id := Option.some "ghost" } (Option.some "u1")
        okUpload demoStore = (postNotFoundResp, demoStore) ∧
    DELETE (Option.some "0") (Option.some "u1") demoStore
      = (deletedResp,
          { demoStore with posts := (removeFirst "0" demoStore.posts).2 }) ∧
    ((removeFirst "0" demoStore.posts).2.find?
      (fun q => q._id == "0")) = Option.none :=
  have h1 := update_delete_target_resolution
    { formOk with _id := Option.some "ghost" } (Option.some "0") "u1"
    demoStore (demoPost 0) okUpload (by decide) (by decide)
  ⟨h1.1 (by decide) (by decide),
    (h1.2.2 (by decide) (by decide) (by decide) (by decide)).1,
    (h1.2.2 (by decide) (by decide) (by decide) (by decide)).2⟩
